import Mathlib

/-!
Verification of the IT-audit CLI (`audit.py`): a shallow embedding of its
path handling, inventory logger, template copier, shell-log exporter and
CLI dispatcher, together with theorems settling the spec's claims.

Paths are modelled as lists of components; the filesystem as explicit
state (directory list plus a path-to-bytes file map); exceptions as
`Option String` / `Except String`.
-/

namespace Audit

/-- A filesystem path, as a list of components. -/
abbrev Path := List String

/-- Characters after the last `'/'` of a character list. -/
def afterLastSlash (l : List Char) : List Char :=
  l.foldl (fun acc c => if c = '/' then [] else acc ++ [c]) []

/-- `os.path.basename` on POSIX: the part of the string after the last
slash (`audit.py` line 174 sanitizes the CLI name argument with it). -/
def basename (s : String) : String :=
  String.mk (afterLastSlash s.toList)

/-- One step of path normalisation: `.` and empty components are dropped,
`..` removes the previous component, anything else is appended. -/
def normStep (acc : List String) (c : String) : List String :=
  if c = "" ∨ c = "." then acc
  else if c = ".." then acc.dropLast
  else acc ++ [c]

/-- Resolve `.` and `..` components of a path. -/
def normalize (p : Path) : Path :=
  p.foldl normStep []

/-- Whether path `p`, after resolving `.` and `..`, still lies inside
directory `root`. -/
def withinRoot (root p : Path) : Bool :=
  (normalize root).isPrefixOf (normalize p)

/-- `get_fullpath` (`audit.py` lines 32-36): joins the configured root
folder with the audit name.  (The existence check that the Python version
performs is modelled at each call site against the explicit filesystem.) -/
def get_fullpath (root : Path) (audit_name : String) : Path :=
  root ++ [audit_name]

/-- Render a component path the way the Python code prints joined paths
in its messages. -/
def pathToString (p : Path) : String :=
  String.intercalate "/" p

/-- The configuration module `config`: root storage folder (already
expanded, line 13), screenshot toggle and auto-commit toggle. -/
structure Config where
  auditFolder : Path
  screenshots : Bool
  gitAutocommit : Bool
deriving Repr, DecidableEq

/-- Explicit filesystem state: the set of existing directories and a map
from file paths to raw byte contents. -/
structure FS where
  dirs : List Path
  files : List (Path × List Nat)
deriving Repr, DecidableEq

/-- `os.path.exists`: true if the path is a known directory or file. -/
def pathExists (fs : FS) (p : Path) : Bool :=
  fs.dirs.contains p || fs.files.any (fun f => f.1 = p)

/-- Content of a file, if present. -/
def readFile (fs : FS) (p : Path) : Option (List Nat) :=
  (fs.files.find? (fun f => f.1 = p)).map (fun f => f.2)

/-- `open(p, 'w')` followed by a full write: truncates/creates the file
at `p` with the given bytes, replacing any previous entry. -/
def writeFile (fs : FS) (p : Path) (content : List Nat) : FS :=
  { fs with files := fs.files.filter (fun f => f.1 ≠ p) ++ [(p, content)] }

/-- The skeleton template (`skel/`, an external asset): directory and
file entries relative to its own root. -/
structure Skel where
  dirs : List Path
  files : List (Path × List Nat)
deriving Repr, DecidableEq

/-- `shutil.copytree(skel, dest)`: creates `dest` and copies the skeleton
tree under it, preserving structure. -/
def copytree (skel : Skel) (dest : Path) (fs : FS) : FS :=
  { dirs := fs.dirs ++ [dest] ++ skel.dirs.map (fun d => dest ++ d)
  , files := fs.files ++ skel.files.map (fun f => (dest ++ f.1, f.2)) }

/-- Result of one operation: the filesystem afterwards, the messages it
printed (via `log_info` / `log_warning` / `log_error`), and the exception
it raised, if any.  On a raise, `fs` is the state at the raise point. -/
structure OpOut where
  fs : FS
  logs : List String
  exc : Option String
deriving Repr, DecidableEq

/-- ASCII bytes of a string, for modelled text writes. -/
def strToBytes (s : String) : List Nat :=
  s.toList.map Char.toNat

/-- `init` (`audit.py` lines 84-103): checks the root folder exists,
checks the target does not, copies the skeleton, then (when auto-commit
is on) runs the git subprocess calls whose combined outcome is the
`gitResult` parameter — any failure there is downgraded to a warning
(lines 96-101) and `init` still logs success. -/
def init (cfg : Config) (skel : Skel) (gitResult : Except String Unit)
    (audit_name : String) (fs : FS) : OpOut :=
  if ¬ pathExists fs cfg.auditFolder then
    ⟨fs, [], some ("Main folder " ++ pathToString cfg.auditFolder ++ " does not exist.")⟩
  else
    let fullpath := get_fullpath cfg.auditFolder audit_name
    if pathExists fs fullpath then
      ⟨fs, [], some ("Audit folder already exists: " ++ pathToString fullpath)⟩
    else
      let fs2 := copytree skel fullpath fs
      let warns :=
        if cfg.gitAutocommit then
          match gitResult with
          | .ok _ => []
          | .error e => ["[!] Git initialization failed: " ++ e]
        else []
      ⟨fs2, warns ++ ["[+] Created audit project in " ++ pathToString fullpath], none⟩

/-- `list_audits` (`audit.py` lines 76-81): raises if the root folder is
missing, otherwise prints every child that contains the `.audit` marker. -/
def list_audits (cfg : Config) (rootChildren : List String) (fs : FS) : OpOut :=
  if ¬ pathExists fs cfg.auditFolder then
    ⟨fs, [], some ("Main folder " ++ pathToString cfg.auditFolder ++ " does not exist.")⟩
  else
    ⟨fs, (rootChildren.filter
        (fun c => pathExists fs (cfg.auditFolder ++ [c, ".audit"]))).map
        (fun c => "[+] " ++ c), none⟩

/-- Python text-mode error handlers for undecodable bytes:
`strict` raises, `ignore` drops the byte, `replace` substitutes U+FFFD. -/
inductive DecodeErrorMode where
  | strict
  | ignore
  | replace
deriving Repr, DecidableEq

/-- Decode a byte stream to characters.  Bytes below 0x80 decode to the
corresponding character; a byte ≥ 0x80 is an undecodable byte handled
according to the error mode (the multi-byte well-formed UTF-8 sequences
of a full decoder are immaterial to the claims and not modelled). -/
def decodeChars (mode : DecodeErrorMode) : List Nat → Option (List Char)
  | [] => some []
  | b :: bs =>
    if b < 128 then (decodeChars mode bs).map (fun cs => Char.ofNat b :: cs)
    else
      match mode with
      | .strict => none
      | .ignore => decodeChars mode bs
      | .replace => (decodeChars mode bs).map (fun cs => Char.ofNat 0xFFFD :: cs)

/-- Decode a byte stream to a string under the given error mode. -/
def decodeBytes (mode : DecodeErrorMode) (bs : List Nat) : Option String :=
  (decodeChars mode bs).map List.asString

/-- The read performed by `export_shell_log` (`audit.py` line 144):
`open(..., 'r', errors='ignore')` — undecodable bytes are dropped. -/
def readTextIgnore (bs : List Nat) : String :=
  (decodeBytes .ignore bs).getD ""

/-- Modelled from the spec: the read as § 4.5 words it — "decoding
failures on individual bytes are tolerated by substitution", i.e.
`errors='replace'`, undecodable bytes replaced by the substitution
character.  Kept for comparison with `readTextIgnore`, the code's read. -/
def readTextSpec (bs : List Nat) : String :=
  (decodeBytes .replace bs).getD ""

/-- The 80-character `=` separator line (`'='*80`, line 145). -/
def sepLine : String :=
  String.mk (List.replicate 80 '=')

/-- `name.endswith(suffix)` (line 143). -/
def strEndsWith (s suffix : String) : Bool :=
  suffix.toList.isSuffixOf s.toList

/-- Files picked up by the `os.walk` over `logs/shell` (lines 141-143):
every file strictly below `shellDir` whose name ends in `.log`, in file
table order, as (base name, bytes) pairs. -/
def listShellLogs (fs : FS) (shellDir : Path) : List (String × List Nat) :=
  fs.files.filterMap (fun f =>
    if shellDir.isPrefixOf f.1 ∧ shellDir.length < f.1.length then
      let file := f.1.getLastD ""
      if strEndsWith file ".log" then some (file, f.2) else none
    else none)

/-- The buffer entry appended for one matched log file (line 145). -/
def logEntryText (file : String) (content : List Nat) : String :=
  "\n" ++ sepLine ++ "\n" ++ file ++ "\n" ++ sepLine ++ "\n" ++ readTextIgnore content

/-- `export_shell_log` (`audit.py` lines 131-151): resolves the audit
path (raising if absent), reports an error and stops if `logs/shell` is
missing, otherwise concatenates every matched `.log` file into the
`<pre>`-wrapped HTML and overwrites `shell_log.html` at the audit root. -/
def export_shell_log (cfg : Config) (audit_name : String) (fs : FS) : OpOut :=
  let audit_path := get_fullpath cfg.auditFolder audit_name
  if ¬ pathExists fs audit_path then
    ⟨fs, [], some ("Audit folder does not exist : " ++ pathToString audit_path)⟩
  else
    let shell_dir := audit_path ++ ["logs", "shell"]
    if ¬ pathExists fs shell_dir then
      ⟨fs, ["[X] No shell logs found in " ++ pathToString shell_dir], none⟩
    else
      let all_logs := ((listShellLogs fs shell_dir).map
        (fun f => logEntryText f.1 f.2)).foldl (fun a b => a ++ b) ""
      let html := "<html><body><pre>" ++ all_logs ++ "</pre></body></html>"
      let html_file := audit_path ++ ["shell_log.html"]
      ⟨writeFile fs html_file (strToBytes html),
       ["[+] Exported audit logs to " ++ pathToString html_file], none⟩

/-- Outcome of `os.path.getsize` / `os.path.getmtime` on one walked
file: either its size in bytes and its `time.ctime` string, or the
message of the exception the stat/read raised (permission denied,
deleted during the scan, ...). -/
inductive StatResult where
  | ok (sizeBytes : Nat) (mtimeStr : String)
  | err (msg : String)
deriving Repr, DecidableEq

/-- One file yielded by the `os.walk` over the audit folder (lines
58-62): its base name `name` (the `file` variable), the
`os.path.relpath(file_path, audit_path)` string, and the stat outcome. -/
structure WalkEntry where
  name : String
  relPath : String
  res : StatResult
deriving Repr, DecidableEq

/-- Left-justify to a minimum width with spaces (`f"{s:80}"`). -/
def padRightStr (s : String) (w : Nat) : String :=
  s ++ String.mk (List.replicate (w - s.length) ' ')

/-- Right-justify to a minimum width with spaces (`f"{x:10.2f}"`). -/
def padLeftStr (s : String) (w : Nat) : String :=
  String.mk (List.replicate (w - s.length) ' ') ++ s

/-- `size / 1024` rendered with two decimals (`{:.2f}`), via hundredths
of a KB rounded to nearest (the float's half-even tie rounding is
approximated by half-up; no claim depends on the tie digits). -/
def formatKB (sizeBytes : Nat) : String :=
  let centi := (sizeBytes * 100 * 2 + 1024) / 2048
  toString (centi / 100) ++ "." ++
    (if centi % 100 < 10 then "0" ++ toString (centi % 100) else toString (centi % 100))

/-- The text the scan loop (lines 59-69) appends for one walked file:
nothing when the file is the inventory log itself (`file ==
'audit_file_list.txt'`, checked on the base name before anything else),
an `ERROR reading` line when the per-file stat raised, and otherwise the
fixed-width inventory line. -/
def entryLine (e : WalkEntry) : String :=
  if e.name = "audit_file_list.txt" then ""
  else
    match e.res with
    | .ok size mtime =>
        padRightStr e.relPath 80 ++ "  " ++ padLeftStr (formatKB size) 10
          ++ " KB   Modified: " ++ mtime ++ "\n"
    | .err msg => "ERROR reading " ++ e.name ++ ": " ++ msg ++ "\n"

/-- The inventory lines for a whole walk. -/
def inventoryLines (entries : List WalkEntry) : String :=
  (entries.map entryLine).foldl (fun a b => a ++ b) ""

/-- ASCII upper-casing of one character (`str.upper` on the mode tags,
which are plain ASCII). -/
def chUpper (c : Char) : Char :=
  if 'a' ≤ c ∧ c ≤ 'z' then Char.ofNat (c.toNat - 32) else c

/-- `mode.upper()` for the header tag. -/
def strUpper (s : String) : String :=
  String.mk (s.toList.map chUpper)

/-- The header block written first (lines 54-56): mode tag upper-cased,
audit name, and the `time.ctime()` generation timestamp. -/
def inventoryHeader (audit_name mode genTime : String) : String :=
  "\n=== Audit File Inventory (" ++ strUpper mode ++ " SESSION) ===\n"
    ++ "Audit: " ++ audit_name ++ "\n"
    ++ "Generated: " ++ genTime ++ "\n\n"

/-- Everything one `generate_audit_file_log` call appends. -/
def inventoryBlock (audit_name mode genTime : String)
    (entries : List WalkEntry) : String :=
  inventoryHeader audit_name mode genTime ++ inventoryLines entries

/-- `generate_audit_file_log` (`audit.py` lines 48-71) as a transition on
the content of `logs/audit_file_list.txt`: the file is opened in append
mode (`'a'`), so the new content is the old content followed by one
header block and the per-file lines of the walk. -/
def generate_audit_file_log (audit_name mode genTime : String)
    (entries : List WalkEntry) (logContent : String) : String :=
  logContent ++ inventoryBlock audit_name mode genTime entries

/-- `start` (lines 106-119): its effect on the inventory log is one
`generate_audit_file_log` call with mode `"start"`. -/
def startLog (audit_name genTime : String) (entries : List WalkEntry)
    (logContent : String) : String :=
  generate_audit_file_log audit_name "start" genTime entries logContent

/-- `stop` (lines 122-128): one `generate_audit_file_log` call with mode
`"stop"`. -/
def stopLog (audit_name genTime : String) (entries : List WalkEntry)
    (logContent : String) : String :=
  generate_audit_file_log audit_name "stop" genTime entries logContent

/-- The five dispatch targets of the CLI `try` block (lines 177-186),
abstracted to the exception they raise, if any; the concrete operations
of this file are plugged in where a claim needs them. -/
structure Ops where
  init : String → Except String Unit
  start : String → Except String Unit
  stop : String → Except String Unit
  exportShell : String → Except String Unit
  list : Except String Unit

/-- What the process prints and the exit status it ends with. -/
structure CLIResult where
  printed : List String
  exitCode : Nat
deriving Repr, DecidableEq

/-- Python truthiness of the optional `audit_name` argument: absent or
empty counts as not given (lines 169 and 173). -/
def nameGiven : Option String → Bool
  | none => false
  | some s => s ≠ ""

/-- The `try` block's dispatch on the action keyword (lines 177-186). -/
def dispatchRun (ops : Ops) (action name : String) : Except String Unit :=
  if action = "init" then ops.init name
  else if action = "start" then ops.start name
  else if action = "stop" then ops.stop name
  else if action = "export" then ops.exportShell name
  else ops.list

/-- The CLI entry point (`audit.py` lines 156-188): an unrecognised
action or a missing required name prints a usage error and exits 1
(lines 164-171); otherwise the name is sanitised with
`os.path.basename` (lines 173-174) before dispatch, and an exception
from the dispatched operation is caught and printed by `log_error`
(lines 187-188) — after which the program falls off the end, so the
process exit status is 0. -/
def mainCLI (ops : Ops) (action : String) (audit_name : Option String) :
    CLIResult :=
  if ¬ (action = "init" ∨ action = "start" ∨ action = "stop"
        ∨ action = "export" ∨ action = "list") then
    ⟨["[X] Invalid action. Use one of: init|start|stop|export|list"], 1⟩
  else if (action = "init" ∨ action = "start" ∨ action = "stop"
           ∨ action = "export") ∧ nameGiven audit_name = false then
    ⟨["[X] Specify an audit name."], 1⟩
  else
    let name := if nameGiven audit_name then basename (audit_name.getD "") else ""
    match dispatchRun ops action name with
    | .ok _ => ⟨[], 0⟩
    | .error e => ⟨["[X] " ++ e], 0⟩

/-! Concrete inputs used by the closed theorems below. -/

/-- A configuration whose root folder is `audits`. -/
def cfg0 : Config := ⟨["audits"], false, false⟩

/-- The empty filesystem: the configured root is missing. -/
def fs0 : FS := ⟨[], []⟩

/-- A small skeleton template: `logs/`, `logs/shell/` and the `.audit`
marker. -/
def skel0 : Skel := ⟨[["logs"], ["logs", "shell"]], [([".audit"], [])]⟩

/-- The exception view of an operation's outcome, for wiring modelled
operations into the dispatcher. -/
def excOf (o : OpOut) : Except String Unit :=
  match o.exc with
  | some e => .error e
  | none => .ok ()

/-- The dispatch targets over the empty filesystem `fs0`: `init`,
`export` and `list` raise there because the root folder is missing. -/
def opsMissingRoot : Ops :=
  ⟨fun n => excOf (init cfg0 skel0 (.ok ()) n fs0),
   fun _ => .ok (), fun _ => .ok (),
   fun n => excOf (export_shell_log cfg0 n fs0),
   excOf (list_audits cfg0 [] fs0)⟩

/-- Dispatch targets that raise the name they were handed, to observe
which name string reaches the operations. -/
def echoOps : Ops :=
  ⟨fun n => .error n, fun n => .error n, fun n => .error n, fun n => .error n, .error "list"⟩

/-- A filesystem where the parent of the root folder is itself a
directory with a `logs/shell` subtree — the ordinary situation on a real
disk, seen from inside the model. -/
def fsEsc : FS :=
  ⟨[["audits"], ["audits", ".."], ["audits", "..", "logs"],
    ["audits", "..", "logs", "shell"]], []⟩

/-- Root, one project `p`, and its `logs/shell` holding one log file
whose bytes contain the undecodable byte `0xFF`. -/
def fsC4 : FS :=
  ⟨[["audits"], ["audits", "p"], ["audits", "p", "logs"], ["audits", "p", "logs", "shell"]],
   [(["audits", "p", "logs", "shell", "a.log"], [65, 255, 66])]⟩

/-- Root plus an existing project directory `p`. -/
def fsP : FS := ⟨[["audits"], ["audits", "p"]], []⟩

/-- A project whose `logs/shell` exists but holds no `.log` file, with a
stale `shell_log.html` already present at the project root. -/
def fsC10 : FS :=
  ⟨[["audits"], ["audits", "p"], ["audits", "p", "logs"], ["audits", "p", "logs", "shell"]],
   [(["audits", "p", "shell_log.html"], [1, 2, 3]),
    (["audits", "p", "logs", "shell", "readme.txt"], [65])]⟩

end Audit

namespace Audit

set_option maxRecDepth 100000

theorem normalize_append_single (p : Path) (c : String) :
    normalize (p ++ [c]) = normStep (normalize p) c := by
  simp [normalize, List.foldl_append]

theorem isPrefixOf_normStep (r x : List String) (c : String)
    (hc : c ≠ "..") (h : r.isPrefixOf x = true) :
    r.isPrefixOf (normStep x c) = true := by
  unfold normStep
  by_cases h1 : c = "" ∨ c = "."
  · simp [h1, h]
  · simp only [h1, if_false, hc, if_false]
    rw [List.isPrefixOf_iff_prefix] at h ⊢
    exact h.trans (List.prefix_append x [c])

theorem withinRoot_refl (root : Path) : withinRoot root root = true := by
  unfold withinRoot
  rw [List.isPrefixOf_iff_prefix]

theorem withinRoot_extend (root p : Path) (c : String)
    (hc : c ≠ "..") (h : withinRoot root p = true) :
    withinRoot root (p ++ [c]) = true := by
  unfold withinRoot at h ⊢
  rw [normalize_append_single]
  exact isPrefixOf_normStep _ _ _ hc h

theorem foldl_strAppend_init (l : List String) (s : String) :
    l.foldl (fun a b => a ++ b) s = s ++ l.foldl (fun a b => a ++ b) "" := by
  induction l generalizing s with
  | nil => simp
  | cons c l ih =>
      simp only [List.foldl_cons]
      rw [ih (s ++ c), ih ("" ++ c)]
      simp [String.append_assoc]

theorem inventoryLines_append (l1 l2 : List WalkEntry) :
    inventoryLines (l1 ++ l2) = inventoryLines l1 ++ inventoryLines l2 := by
  unfold inventoryLines
  rw [List.map_append, List.foldl_append, foldl_strAppend_init]

theorem inventoryLines_cons (e : WalkEntry) (l : List WalkEntry) :
    inventoryLines (e :: l) = entryLine e ++ inventoryLines l := by
  unfold inventoryLines
  simp only [List.map_cons, List.foldl_cons]
  rw [foldl_strAppend_init]
  simp

theorem inventoryHeader_length_pos (n m t : String) :
    0 < (inventoryHeader n m t).length := by
  unfold inventoryHeader
  have h : 0 < ("\n=== Audit File Inventory (" : String).length := by decide
  simp only [String.length_append]
  omega

theorem readFile_writeFile (fs : FS) (p : Path) (c : List Nat) :
    readFile (writeFile fs p c) p = some c := by
  unfold readFile writeFile
  induction fs.files with
  | nil => simp [List.find?]
  | cons a l ih =>
      by_cases hp : a.1 = p
      · simp [List.filter_cons, hp, ih]
      · simp only [List.filter_cons]
        simp [hp, List.find?, ih]

theorem decodeChars_ignore_isSome (bs : List Nat) :
    (decodeChars .ignore bs).isSome = true := by
  induction bs with
  | nil => simp [decodeChars]
  | cons b bs ih =>
      by_cases hb : b < 128
      · simp [decodeChars, hb, ih]
      · simp [decodeChars, hb, ih]

/-- Claim C1, counterexample: the name `x/..` contains a path-separator
component; its final segment — what `os.path.basename` keeps — is `..`,
and the path every operation then builds from it resolves outside the
configured root: `export` on it writes `shell_log.html` into the parent
of the root folder. -/
theorem C1_name_dotdot_escapes_root :
    basename "x/.." = ".." ∧
    withinRoot ["audits"] (get_fullpath ["audits"] (basename "x/..")) = false ∧
    readFile (export_shell_log cfg0 (basename "x/..") fsEsc).fs
        ["audits", "..", "shell_log.html"]
      = some (strToBytes "<html><body><pre></pre></body></html>") ∧
    withinRoot ["audits"] ["audits", "..", "shell_log.html"] = false := by
  decide

/-- Claim C1, amended: every given name argument is sanitised to its
final path segment by the dispatcher before any path is built (the
operations only ever see `basename raw`), and whenever that final
segment is not `..` itself, the project path and the paths below it stay
inside the configured root. -/
theorem C1_sanitize_and_containment (root : Path) (raw : String)
    (h : basename raw ≠ "..") (h0 : raw ≠ "") :
    withinRoot root (get_fullpath root (basename raw)) = true ∧
    withinRoot root
      (get_fullpath root (basename raw) ++ ["logs", "audit_file_list.txt"]) = true ∧
    mainCLI echoOps "start" (some raw) = ⟨["[X] " ++ basename raw], 0⟩ := by
  refine ⟨?_, ?_, ?_⟩
  · exact withinRoot_extend root root (basename raw) h (withinRoot_refl root)
  · have h1 := withinRoot_extend root root (basename raw) h (withinRoot_refl root)
    have h2 := withinRoot_extend root _ "logs" (by decide) h1
    have h3 := withinRoot_extend root _ "audit_file_list.txt" (by decide) h2
    simpa [get_fullpath, List.append_assoc] using h3
  · simp [mainCLI, dispatchRun, echoOps, nameGiven, h0]

/-- Witness for C1's amended theorem at root `audits` and raw name
`../evil`, whose final segment is `evil`. -/
theorem C1_sanitize_and_containment_witness :
    (basename "../evil" ≠ ".." ∧ "../evil" ≠ "") ∧
    (withinRoot ["audits"] (get_fullpath ["audits"] (basename "../evil")) = true ∧
     withinRoot ["audits"]
       (get_fullpath ["audits"] (basename "../evil") ++ ["logs", "audit_file_list.txt"]) = true ∧
     mainCLI echoOps "start" (some "../evil") = ⟨["[X] " ++ basename "../evil"], 0⟩) :=
  ⟨⟨by decide, by decide⟩,
   C1_sanitize_and_containment ["audits"] "../evil" (by decide) (by decide)⟩

/-- Claim C2, counterexample: dispatching `init` over a filesystem whose
root folder is missing raises a top-level error; the dispatcher prints it
but the process ends with exit code 0, not 1 — the except handler at
lines 187-188 only prints, it never calls exit. -/
theorem C2_dispatch_error_exits_zero_cex :
    mainCLI opsMissingRoot "init" (some "proj")
      = ⟨["[X] Main folder audits does not exist."], 0⟩ ∧
    (mainCLI opsMissingRoot "init" (some "proj")).exitCode ≠ 1 := by
  decide

/-- Claim C2, amended: for every valid action with its required name
given, if the dispatched operation raises a top-level error then the
process prints the formatted error and terminates with exit code 0;
exit code 1 is produced only by the usage checks before dispatch. -/
theorem C2_dispatch_error_prints_and_exits_zero (ops : Ops) (action : String)
    (audit_name : Option String) (e : String)
    (hact : action = "init" ∨ action = "start" ∨ action = "stop"
            ∨ action = "export" ∨ action = "list")
    (hname : (action = "init" ∨ action = "start" ∨ action = "stop" ∨ action = "export") →
      nameGiven audit_name = true)
    (herr : dispatchRun ops action
        (if nameGiven audit_name then basename (audit_name.getD "") else "") = .error e) :
    mainCLI ops action audit_name = ⟨["[X] " ++ e], 0⟩ := by
  rcases hact with h | h | h | h | h <;> subst h <;>
    simp_all [mainCLI, dispatchRun]

/-- Witness for C2's amended theorem: `export` on a missing root prints
the raised error and exits 0. -/
theorem C2_dispatch_error_prints_and_exits_zero_witness :
    mainCLI opsMissingRoot "export" (some "proj")
      = ⟨["[X] Audit folder does not exist : audits/proj"], 0⟩ :=
  C2_dispatch_error_prints_and_exits_zero opsMissingRoot "export" (some "proj") _
    (by decide) (by intro h; decide) rfl

/-- Claim C3: when the root exists and the target project path already
exists, `init` raises the AlreadyExists-style error and returns the
filesystem exactly as it was — the raise happens before `copytree`, so
the failed call makes no filesystem change. -/
theorem C3_init_existing_fails_unchanged (cfg : Config) (skel : Skel)
    (git : Except String Unit) (audit_name : String) (fs : FS)
    (hroot : pathExists fs cfg.auditFolder = true)
    (hex : pathExists fs (get_fullpath cfg.auditFolder audit_name) = true) :
    (init cfg skel git audit_name fs).fs = fs ∧
    (init cfg skel git audit_name fs).exc
      = some ("Audit folder already exists: "
          ++ pathToString (get_fullpath cfg.auditFolder audit_name)) := by
  simp [init, hroot, hex]

/-- Witness for C3 at root `audits` and an existing project `p`. -/
theorem C3_init_existing_fails_unchanged_witness :
    (pathExists fsP ["audits"] = true ∧
     pathExists fsP (get_fullpath ["audits"] "p") = true) ∧
    ((init ⟨["audits"], false, true⟩ skel0 (.ok ()) "p" fsP).fs = fsP ∧
     (init ⟨["audits"], false, true⟩ skel0 (.ok ()) "p" fsP).exc
       = some ("Audit folder already exists: "
           ++ pathToString (get_fullpath ["audits"] "p"))) :=
  ⟨⟨by decide, by decide⟩,
   C3_init_existing_fails_unchanged ⟨["audits"], false, true⟩ skel0 (.ok ()) "p" fsP
     (by decide) (by decide)⟩

/-- Claim C4, counterexample: the export read uses the ignore error
handler, so the undecodable byte `0xFF` in `a.log` is dropped — the text
included in the HTML is `AB`, not the substitution-decoded text the
claim describes (which differs, carrying the replacement character). -/
theorem C4_undecodable_bytes_dropped_not_replaced :
    readTextIgnore [65, 255, 66] = "AB" ∧
    readTextSpec [65, 255, 66] ≠ readTextIgnore [65, 255, 66] ∧
    readFile (export_shell_log cfg0 "p" fsC4).fs ["audits", "p", "shell_log.html"]
      = some (strToBytes
          ("<html><body><pre>" ++ logEntryText "a.log" [65, 255, 66] ++ "</pre></body></html>")) ∧
    readFile (export_shell_log cfg0 "p" fsC4).fs ["audits", "p", "shell_log.html"]
      ≠ some (strToBytes
          ("<html><body><pre>" ++ ("\n" ++ sepLine ++ "\n" ++ "a.log" ++ "\n" ++ sepLine ++ "\n"
            ++ readTextSpec [65, 255, 66]) ++ "</pre></body></html>")) := by
  decide

/-- Claim C4, amended: during export, each matched log file's full text
is read with decoding failures on individual bytes tolerated by omission
(undecodable bytes are dropped, the read never aborts), and the
resulting text is included in the HTML output. -/
theorem C4_read_never_aborts_and_included (cfg : Config) (audit_name : String)
    (fs : FS) (file : String) (content : List Nat)
    (hp : pathExists fs (get_fullpath cfg.auditFolder audit_name) = true)
    (hs : pathExists fs (get_fullpath cfg.auditFolder audit_name ++ ["logs", "shell"]) = true)
    (hl : listShellLogs fs (get_fullpath cfg.auditFolder audit_name ++ ["logs", "shell"])
        = [(file, content)]) :
    (decodeBytes .ignore content).isSome = true ∧
    readFile (export_shell_log cfg audit_name fs).fs
        (get_fullpath cfg.auditFolder audit_name ++ ["shell_log.html"])
      = some (strToBytes
          ("<html><body><pre>" ++ logEntryText file content ++ "</pre></body></html>")) := by
  constructor
  · simp [decodeBytes, decodeChars_ignore_isSome]
  · simp only [export_shell_log, hp, hs, hl]
    simp [readFile_writeFile]

/-- Witness for C4's amended theorem on the project of `fsC4`. -/
theorem C4_read_never_aborts_and_included_witness :
    (pathExists fsC4 (get_fullpath ["audits"] "p") = true ∧
     pathExists fsC4 (get_fullpath ["audits"] "p" ++ ["logs", "shell"]) = true ∧
     listShellLogs fsC4 (get_fullpath ["audits"] "p" ++ ["logs", "shell"])
       = [("a.log", [65, 255, 66])]) ∧
    ((decodeBytes .ignore [65, 255, 66]).isSome = true ∧
     readFile (export_shell_log cfg0 "p" fsC4).fs
         (get_fullpath ["audits"] "p" ++ ["shell_log.html"])
       = some (strToBytes
           ("<html><body><pre>" ++ logEntryText "a.log" [65, 255, 66] ++ "</pre></body></html>"))) :=
  ⟨⟨by decide, by decide, by decide⟩,
   C4_read_never_aborts_and_included cfg0 "p" fsC4 "a.log" [65, 255, 66]
     (by decide) (by decide) (by decide)⟩

/-- Claim C5: with auto-commit configured, a failing version-control
step is downgraded to a warning and `init` still completes — it raises
nothing, logs the warning, and the freshly created project folder is
present in the resulting filesystem. -/
theorem C5_git_failure_warns_init_succeeds (cfg : Config) (skel : Skel)
    (audit_name : String) (fs : FS) (e : String)
    (hauto : cfg.gitAutocommit = true)
    (hroot : pathExists fs cfg.auditFolder = true)
    (hnew : pathExists fs (get_fullpath cfg.auditFolder audit_name) = false) :
    (init cfg skel (.error e) audit_name fs).exc = none ∧
    ("[!] Git initialization failed: " ++ e) ∈ (init cfg skel (.error e) audit_name fs).logs ∧
    pathExists (init cfg skel (.error e) audit_name fs).fs
      (get_fullpath cfg.auditFolder audit_name) = true := by
  refine ⟨?_, ?_, ?_⟩
  · simp [init, hroot, hnew]
  · simp [init, hroot, hnew, hauto]
  · simp only [init, hroot, hnew]
    simp [pathExists, copytree]

/-- Witness for C5: `init` of a new project `q` under an existing root,
with the git step failing. -/
theorem C5_git_failure_warns_init_succeeds_witness :
    ((⟨["audits"], false, true⟩ : Config).gitAutocommit = true ∧
     pathExists fsP ["audits"] = true ∧
     pathExists fsP (get_fullpath ["audits"] "q") = false) ∧
    ((init ⟨["audits"], false, true⟩ skel0 (.error "git: not found") "q" fsP).exc = none ∧
     ("[!] Git initialization failed: " ++ "git: not found")
       ∈ (init ⟨["audits"], false, true⟩ skel0 (.error "git: not found") "q" fsP).logs ∧
     pathExists (init ⟨["audits"], false, true⟩ skel0 (.error "git: not found") "q" fsP).fs
       (get_fullpath ["audits"] "q") = true) :=
  ⟨⟨by decide, by decide, by decide⟩,
   C5_git_failure_warns_init_succeeds ⟨["audits"], false, true⟩ skel0 "q" fsP
     "git: not found" (by decide) (by decide) (by decide)⟩

/-- Claim C6: on an existing project whose `logs/shell` subdirectory is
absent, export returns the filesystem untouched (no HTML file written,
no existing export modified), prints the error message, and raises
nothing. -/
theorem C6_export_missing_shell_writes_nothing (cfg : Config)
    (audit_name : String) (fs : FS)
    (hp : pathExists fs (get_fullpath cfg.auditFolder audit_name) = true)
    (hs : pathExists fs (get_fullpath cfg.auditFolder audit_name ++ ["logs", "shell"]) = false) :
    export_shell_log cfg audit_name fs
      = ⟨fs, ["[X] No shell logs found in "
          ++ pathToString (get_fullpath cfg.auditFolder audit_name ++ ["logs", "shell"])], none⟩ := by
  simp [export_shell_log, hp, hs]

/-- Witness for C6: project `p` of `fsP` has no `logs/shell`. -/
theorem C6_export_missing_shell_writes_nothing_witness :
    (pathExists fsP (get_fullpath ["audits"] "p") = true ∧
     pathExists fsP (get_fullpath ["audits"] "p" ++ ["logs", "shell"]) = false) ∧
    export_shell_log cfg0 "p" fsP
      = ⟨fsP, ["[X] No shell logs found in "
          ++ pathToString (get_fullpath ["audits"] "p" ++ ["logs", "shell"])], none⟩ :=
  ⟨⟨by decide, by decide⟩,
   C6_export_missing_shell_writes_nothing cfg0 "p" fsP (by decide) (by decide)⟩

/-- Claim C7: `start` then `stop` appends exactly two blocks to the
inventory log — the log becomes the old content followed by one block
whose header is tagged with the upper-cased `start` mode and then one
tagged with the upper-cased `stop` mode (`strUpper "start" = "START"`,
`strUpper "stop" = "STOP"`) — and the log is strictly longer after each
of the two operations than before it. -/
theorem C7_start_stop_appends_two_blocks (audit_name t1 t2 : String)
    (e1 e2 : List WalkEntry) (log : String) :
    stopLog audit_name t2 e2 (startLog audit_name t1 e1 log)
      = log ++ (inventoryHeader audit_name "start" t1 ++ inventoryLines e1)
            ++ (inventoryHeader audit_name "stop" t2 ++ inventoryLines e2) ∧
    strUpper "start" = "START" ∧ strUpper "stop" = "STOP" ∧
    log.length < (startLog audit_name t1 e1 log).length ∧
    (startLog audit_name t1 e1 log).length
      < (stopLog audit_name t2 e2 (startLog audit_name t1 e1 log)).length := by
  refine ⟨?_, by decide, by decide, ?_, ?_⟩
  · simp [stopLog, startLog, generate_audit_file_log, inventoryBlock, String.append_assoc]
  · have h := inventoryHeader_length_pos audit_name "start" t1
    simp only [startLog, generate_audit_file_log, inventoryBlock, String.length_append]
    omega
  · have h := inventoryHeader_length_pos audit_name "stop" t2
    simp only [stopLog, startLog, generate_audit_file_log, inventoryBlock, String.length_append]
    omega

/-- Claim C8: a per-file read error in the middle of a scan is recorded
inline as a single `ERROR reading` line, the files before and after it
are still inventoried, and no walked file named after the inventory log
produces any line. -/
theorem C8_per_file_error_inline_scan_continues
    (pre post : List WalkEntry) (bad : WalkEntry) (msg : String)
    (hname : bad.name ≠ "audit_file_list.txt")
    (hres : bad.res = .err msg) :
    inventoryLines (pre ++ bad :: post)
      = inventoryLines pre ++ ("ERROR reading " ++ bad.name ++ ": " ++ msg ++ "\n")
        ++ inventoryLines post ∧
    ∀ e : WalkEntry, e.name = "audit_file_list.txt" → entryLine e = "" := by
  constructor
  · rw [inventoryLines_append, inventoryLines_cons]
    have hl : entryLine bad = "ERROR reading " ++ bad.name ++ ": " ++ msg ++ "\n" := by
      simp [entryLine, hname, hres]
    rw [hl]
    simp [String.append_assoc]
  · intro e he
    simp [entryLine, he]

/-- Witness for C8: a permission-denied error on `b.txt` between two
readable files. -/
theorem C8_per_file_error_inline_scan_continues_witness :
    (("b.txt" : String) ≠ "audit_file_list.txt" ∧
     (WalkEntry.mk "b.txt" "b.txt" (.err "Permission denied")).res
       = .err "Permission denied") ∧
    (inventoryLines ([⟨"a.txt", "a.txt", .ok 2048 "Mon Oct 12 10:00:00 2026"⟩]
        ++ ⟨"b.txt", "b.txt", .err "Permission denied"⟩
          :: [⟨"c.txt", "sub/c.txt", .ok 0 "Tue Oct 13 11:00:00 2026"⟩])
      = inventoryLines [⟨"a.txt", "a.txt", .ok 2048 "Mon Oct 12 10:00:00 2026"⟩]
        ++ ("ERROR reading " ++ "b.txt" ++ ": " ++ "Permission denied" ++ "\n")
        ++ inventoryLines [⟨"c.txt", "sub/c.txt", .ok 0 "Tue Oct 13 11:00:00 2026"⟩] ∧
     ∀ e : WalkEntry, e.name = "audit_file_list.txt" → entryLine e = "") :=
  ⟨⟨by decide, by decide⟩,
   C8_per_file_error_inline_scan_continues
     [⟨"a.txt", "a.txt", .ok 2048 "Mon Oct 12 10:00:00 2026"⟩]
     [⟨"c.txt", "sub/c.txt", .ok 0 "Tue Oct 13 11:00:00 2026"⟩]
     ⟨"b.txt", "b.txt", .err "Permission denied"⟩ "Permission denied"
     (by decide) (by decide)⟩

/-- Claim C9: the scan's self-exclusion keys on the base file name
alone — a walked file named `audit_file_list.txt` contributes nothing to
the inventory block wherever it sits in the tree (its `relPath` is
arbitrary), so removing it from the walk leaves the block unchanged. -/
theorem C9_self_exclusion_by_name (e : WalkEntry)
    (h : e.name = "audit_file_list.txt")
    (pre post : List WalkEntry) :
    inventoryLines (pre ++ e :: post) = inventoryLines (pre ++ post) ∧
    entryLine e = "" := by
  have hl : entryLine e = "" := by simp [entryLine, h]
  refine ⟨?_, hl⟩
  rw [inventoryLines_append, inventoryLines_cons, hl, inventoryLines_append]
  simp

/-- Witness for C9: a file named `audit_file_list.txt` inside a
subdirectory (not the real inventory log at `logs/`) is also omitted. -/
theorem C9_self_exclusion_by_name_witness :
    ((WalkEntry.mk "audit_file_list.txt" "sub/audit_file_list.txt"
        (.ok 5 "Mon Oct 12 10:00:00 2026")).name = "audit_file_list.txt") ∧
    (inventoryLines ([⟨"a.txt", "a.txt", .ok 1 "Mon"⟩]
        ++ ⟨"audit_file_list.txt", "sub/audit_file_list.txt",
              .ok 5 "Mon Oct 12 10:00:00 2026"⟩ :: [⟨"c.txt", "c.txt", .ok 2 "Tue"⟩])
      = inventoryLines ([⟨"a.txt", "a.txt", .ok 1 "Mon"⟩] ++ [⟨"c.txt", "c.txt", .ok 2 "Tue"⟩]) ∧
     entryLine ⟨"audit_file_list.txt", "sub/audit_file_list.txt",
       .ok 5 "Mon Oct 12 10:00:00 2026"⟩ = "") :=
  ⟨by decide,
   C9_self_exclusion_by_name
     ⟨"audit_file_list.txt", "sub/audit_file_list.txt", .ok 5 "Mon Oct 12 10:00:00 2026"⟩
     (by decide) [⟨"a.txt", "a.txt", .ok 1 "Mon"⟩] [⟨"c.txt", "c.txt", .ok 2 "Tue"⟩]⟩

/-- Claim C10: on a project whose `logs/shell` exists but matches no
`.log` file, export still writes `shell_log.html` at the project root —
replacing any prior file there — and its content is exactly the empty
HTML wrapper. -/
theorem C10_export_empty_wrapper_overwrites (cfg : Config)
    (audit_name : String) (fs : FS)
    (hp : pathExists fs (get_fullpath cfg.auditFolder audit_name) = true)
    (hs : pathExists fs (get_fullpath cfg.auditFolder audit_name ++ ["logs", "shell"]) = true)
    (hempty : listShellLogs fs (get_fullpath cfg.auditFolder audit_name ++ ["logs", "shell"]) = []) :
    (export_shell_log cfg audit_name fs).fs
      = writeFile fs (get_fullpath cfg.auditFolder audit_name ++ ["shell_log.html"])
          (strToBytes "<html><body><pre></pre></body></html>") ∧
    readFile (export_shell_log cfg audit_name fs).fs
        (get_fullpath cfg.auditFolder audit_name ++ ["shell_log.html"])
      = some (strToBytes "<html><body><pre></pre></body></html>") := by
  have hhtml : ("<html><body><pre>" ++ "" ++ "</pre></body></html>" : String)
      = "<html><body><pre></pre></body></html>" := by decide
  constructor
  · simp only [export_shell_log, hp, hs, hempty]
    simp [hhtml]
  · simp only [export_shell_log, hp, hs, hempty]
    simp [hhtml, readFile_writeFile]

/-- Witness for C10 on `fsC10`, whose `logs/shell` holds only a non-log
file and which already carries a stale `shell_log.html`. -/
theorem C10_export_empty_wrapper_overwrites_witness :
    (pathExists fsC10 (get_fullpath ["audits"] "p") = true ∧
     pathExists fsC10 (get_fullpath ["audits"] "p" ++ ["logs", "shell"]) = true ∧
     listShellLogs fsC10 (get_fullpath ["audits"] "p" ++ ["logs", "shell"]) = []) ∧
    ((export_shell_log cfg0 "p" fsC10).fs
       = writeFile fsC10 (get_fullpath ["audits"] "p" ++ ["shell_log.html"])
           (strToBytes "<html><body><pre></pre></body></html>") ∧
     readFile (export_shell_log cfg0 "p" fsC10).fs
         (get_fullpath ["audits"] "p" ++ ["shell_log.html"])
       = some (strToBytes "<html><body><pre></pre></body></html>")) :=
  ⟨⟨by decide, by decide, by decide⟩,
   C10_export_empty_wrapper_overwrites cfg0 "p" fsC10 (by decide) (by decide) (by decide)⟩

end Audit
